import Mathlib

/-!
Verification of the Guaíba river-level / rainfall pipeline.

The development shallowly embeds the three Python source files:

* `1_processamento_dados.py` — parsing, daily resampling (mean for the
  river level, sum for precipitation), the left join of the two daily
  series, the merge-time zero fill of precipitation and the final dropna;
* `process_data.py` — the alternative comparative pipeline (numeric
  coercion with coerce-then-fillna for rainfall, strict timestamp parse);
* `app.py` — the function `calcular_correlacao_com_lag`, the lag search
  over accumulated rainfall windows.

Timestamps are embedded at calendar-day granularity (an integer day
number), which is the only aspect of a timestamp the resampling and
alignment code inspects.  Machine floats are idealised as exact
rationals.  Pearson correlation coefficients are kept in the
order-isomorphic signed-square encoding (see `pearsonSq`) so that every
definition stays executable: the encoding preserves definedness,
comparisons, maxima and ties of the true coefficient, which is all the
analyzer's control flow ever uses.
-/

/-- A raw sub-daily observation after timestamp parsing: the calendar day
its timestamp falls on, and its value, which is absent (`none`) when the
raw text failed numeric coercion (pandas `NaN`). -/
structure Obs where
  day : ℤ
  val : Option ℚ
deriving DecidableEq, Repr

/-- The observed (non-absent) values falling on calendar day `d` —
the group that pandas `resample('D')` aggregates for that day, with
`NaN` entries skipped (`skipna=True`). -/
def dayVals (obs : List Obs) (d : ℤ) : List ℚ :=
  obs.filterMap fun o => if o.day = d then o.val else none

/-- The calendar days covered by a `resample('D')` result: every day from
the first to the last day appearing in the observation index (pandas
generates the full daily range between the index extremes), empty for an
empty input. -/
def spanDays (obs : List Obs) : List ℤ :=
  match (obs.map Obs.day).min?, (obs.map Obs.day).max? with
  | some a, some b => (List.range ((b - a).toNat + 1)).map fun (j : ℕ) => a + (j : ℤ)
  | _, _ => []

/-- `resample('D').sum()` as used on the precipitation series
(`1_processamento_dados.py` line 99, `process_data.py` line 116): one row
per day of the span, whose value is the sum of that day's observed
values — pandas sums an empty or all-NaN day to `0`. -/
def resampleSumD (obs : List Obs) : List (ℤ × ℚ) :=
  (spanDays obs).map fun d => (d, (dayVals obs d).sum)

/-- `resample('D').mean()` as used on the river-level series
(`1_processamento_dados.py` line 45): one row per day of the span; the
value is the arithmetic mean of the day's observed values, `NaN`
(`none`) when the day has no observed value. -/
def resampleMeanD (obs : List Obs) : List (ℤ × Option ℚ) :=
  (spanDays obs).map fun d =>
    (d, if dayVals obs d = [] then none
        else some ((dayVals obs d).sum / ((dayVals obs d).length : ℚ)))

/-- `df_rio_diario` (`1_processamento_dados.py` lines 45-48): the daily
mean river level with the `dropna` applied, so days without any
measurement disappear from the series. -/
def df_rio_diario (obs : List Obs) : List (ℤ × ℚ) :=
  (resampleMeanD obs).filterMap fun p => p.2.map fun v => (p.1, v)

/-- A row of the joined daily dataset: date, river level and
precipitation, each field possibly absent (`NaN`). -/
structure JRow where
  date : ℤ
  nivel : Option ℚ
  precip : Option ℚ
deriving DecidableEq, Repr

/-- Daily-series lookup by date, as the pandas join does: the value
stored for date `d`, if any. -/
def lookupDay (s : List (ℤ × ℚ)) (d : ℤ) : Option ℚ :=
  (s.find? fun p => p.1 = d).map Prod.snd

/-- `df_rio_diario.join(df_clima_diario)` (`1_processamento_dados.py`
line 115): a left join on the river index, so the result has exactly the
river series' dates; the precipitation field is absent when the climate
series has no entry for that date. -/
def joinRio (rio clima : List (ℤ × ℚ)) : List JRow :=
  rio.map fun p => ⟨p.1, some p.2, lookupDay clima p.1⟩

/-- `df_final['Precipitacao_mm'].fillna(0)` (line 118): absent
precipitation becomes `0`; the level field is untouched. -/
def fillnaPrecip (rows : List JRow) : List JRow :=
  rows.map fun r => ⟨r.date, r.nivel, some (r.precip.getD 0)⟩

/-- `df_final.dropna()` (line 121): keep only rows where every field is
present. -/
def dropnaRows (rows : List JRow) : List JRow :=
  rows.filter fun r => r.nivel.isSome && r.precip.isSome

/-- `df_final` (`1_processamento_dados.py` lines 115-121): join, then
merge-time zero fill of precipitation, then the completeness filter. -/
def df_final (rio clima : List (ℤ × ℚ)) : List JRow :=
  dropnaRows (fillnaPrecip (joinRio rio clima))

/-- A daily series covering the `n` consecutive days starting at `a`,
with values given by `f` — used to state the fixed merge scenario of the
specification's example. -/
def seriesOn (a : ℤ) (n : ℕ) (f : ℤ → ℚ) : List (ℤ × ℚ) :=
  (List.range n).map fun (j : ℕ) => (a + (j : ℤ), f (a + (j : ℤ)))

/-- A row of the consolidated dataset `app.py` loads: date, river level
(`Nivel_m`) and precipitation (`Precipitacao_mm`).  Both value fields are
total, as guaranteed by the producing join stage (`df_final`). -/
structure Row where
  date : ℤ
  nivel : ℚ
  precip : ℚ
deriving DecidableEq, Repr

/-- The sum of the `lag` precipitation entries at positions
`i - lag, ..., i - 1` of the dataset — the value that
`shift(1).rolling(window=lag).sum()` places at position `i` when the
window is complete. -/
def precipWindow (df : List Row) (lag i : ℕ) : ℚ :=
  (((df.map Row.precip).drop (i - lag)).take lag).sum

/-- `df['Precipitacao_mm'].shift(1).rolling(window=lag).sum()` (`app.py`
line 46): position `i` holds the sum of the `lag` entries strictly
before position `i`, and is `NaN` (`none`) while the shifted window is
incomplete, i.e. for `i < lag` (`min_periods` defaults to the window
size and the shifted series starts with a `NaN`). -/
def chuvaAcumulada (df : List Row) (lag : ℕ) : List (Option ℚ) :=
  (List.range df.length).map fun i =>
    if lag ≤ i then some (precipWindow df lag i) else none

/-- The paired observations `Series.corr` works on at `app.py` line 49:
the river level at each position, paired with the accumulated rainfall
at the same position, keeping only positions where the latter is
defined (pandas drops pairs containing a `NaN`; the level column of the
consolidated dataset is never `NaN`). -/
def corrPairs (df : List Row) (lag : ℕ) : List (ℚ × ℚ) :=
  ((df.map Row.nivel).zip (chuvaAcumulada df lag)).filterMap
    fun p => p.2.map fun a => (p.1, a)

/-- Mean of a list of rationals (0 for the empty list, as in pandas'
internal centering of a non-empty series; only applied to non-empty
lists here). -/
def listMean (xs : List ℚ) : ℚ := xs.sum / (xs.length : ℚ)

/-- Centered second moments: `dotCentered xs ys` is
`Σ (x - mean xs) * (y - mean ys)` over the zipped lists. -/
def dotCentered (xs ys : List ℚ) : ℚ :=
  ((xs.map fun x => x - listMean xs).zip (ys.map fun y => y - listMean ys)).foldr
    (fun p acc => p.1 * p.2 + acc) 0

/-- `Series.corr` (Pearson) in the signed-square encoding.  True Pearson
is `r = sxy / sqrt (sxx * syy)`, irrational in general; we store the
strictly monotone image `sign r * r ^ 2 = sxy * |sxy| / (sxx * syy)`,
which is rational and preserves definedness, order, maxima and ties.
The result is defined (`some`) exactly when pandas returns a non-NaN
number in exact arithmetic: both centered variances are nonzero (which
forces at least two paired observations). -/
def pearsonSq (ps : List (ℚ × ℚ)) : Option ℚ :=
  let xs := ps.map Prod.fst
  let ys := ps.map Prod.snd
  let sxx := dotCentered xs xs
  let syy := dotCentered ys ys
  let sxy := dotCentered xs ys
  if sxx ≠ 0 ∧ syy ≠ 0 then some (sxy * |sxy| / (sxx * syy)) else none

/-- The dictionary `correlacoes` built by the loop at `app.py` lines
42-52: for each lag `1, ..., max_lag` in order, the correlation between
the level and the lag-accumulated rainfall, kept only when it is
defined (`if pd.notna(corr)`). -/
def correlacoes (df : List Row) (maxLag : ℕ) : List (ℕ × ℚ) :=
  (List.range maxLag).filterMap fun j =>
    (pearsonSq (corrPairs df (j + 1))).map fun c => (j + 1, c)

/-- One comparison step of Python's `max(..., key=...)`: the candidate
replaces the current best only when its value is strictly greater, so
the first maximum encountered wins ties. -/
def stepMax (b q : ℕ × ℚ) : ℕ × ℚ := if b.2 < q.2 then q else b

/-- `max(correlacoes, key=correlacoes.get)` (`app.py` line 58) on an
association list in insertion order, `none` on the empty dictionary. -/
def pyMax (l : List (ℕ × ℚ)) : Option (ℕ × ℚ) :=
  match l with
  | [] => none
  | p :: ps => some (ps.foldl stepMax p)

/-- `calcular_correlacao_com_lag` (`app.py` lines 30-61): the triple of
best lag, best coefficient and the full lag-to-coefficient mapping, or
`(None, None, None)` when the dictionary is empty.  Since the
dictionary's keys are distinct, `correlacoes[melhor_lag]` is exactly the
value stored with the maximising key. -/
def calcular_correlacao_com_lag (df : List Row) (maxLag : ℕ := 15) :
    Option ℕ × Option ℚ × Option (List (ℕ × ℚ)) :=
  match pyMax (correlacoes df maxLag) with
  | none => (none, none, none)
  | some b => (some b.1, some b.2, some (correlacoes df maxLag))

/-- Sum of the precipitation field over the rows whose date lies in the
closed calendar interval `[a, b]` — the reading of "sum of the driver
over given days" used by the specification. -/
def sumPrecipInRange (df : List Row) (a b : ℤ) : ℚ :=
  ((df.filter fun r => decide (a ≤ r.date) && decide (r.date ≤ b)).map Row.precip).sum

/-- The dataset's dates are consecutive calendar days (each row's date
is the previous row's date plus one). -/
def ConsecutiveDates (df : List Row) : Prop :=
  List.Chain' (fun a b => b.date = a.date + 1) df

/-- A raw timestamp column, each field abstracted to its parse outcome
under the declared format: `some t` when the text parses to the instant
`t`, `none` when it does not. -/
def TsColumn := List (Option ℤ)

/-- `pd.to_datetime(column, format=...)` with the default
`errors='raise'` (`1_processamento_dados.py` line 38, `process_data.py`
line 103): succeeds with all parsed instants when every field parses,
and raises on the first failure — no row is dropped and no count is
recorded. -/
def to_datetime_strict (ts : List (Option ℤ)) : Except Unit (List ℤ) :=
  if ts.all Option.isSome then Except.ok (ts.filterMap id) else Except.error ()

/-- A raw numeric value field abstracted to its coercion outcome: either
text denoting the rational `q`, or text that fails numeric coercion. -/
inductive NumText
  | num (q : ℚ)
  | bad
deriving DecidableEq, Repr

/-- `pd.to_numeric(..., errors='coerce')`: failed coercion becomes `NaN`
(`none`), never a number. -/
def to_numeric_coerce : NumText → Option ℚ
  | NumText.num q => some q
  | NumText.bad => none

/-- The river-level value parse of `1_processamento_dados.py` line 35:
coercion with `errors='coerce'`, the failure staying absent. -/
def nivel_m_1proc (t : NumText) : Option ℚ := to_numeric_coerce t

/-- The river-level value parse of `process_data.py` line 105: same
coerce-to-absent behaviour. -/
def nivel_cm_pd (t : NumText) : Option ℚ := to_numeric_coerce t

/-- The rainfall value parse of `process_data.py` line 94:
`pd.to_numeric(..., errors='coerce').fillna(0)` — the coercion failure
is zero-filled in the same expression. -/
def precipitacao_mm_pd (t : NumText) : ℚ := (to_numeric_coerce t).getD 0

/-! Concrete inputs used by counterexamples and witnesses. -/

/-- An aligned dataset with a calendar gap: days 0 and 2 are present,
day 1 is not (the river had no measurement on day 1, so the join stage
dropped it). -/
def exGapDf : List Row := [⟨0, 1, 5⟩, ⟨2, 1, 7⟩]

/-- An aligned dataset on consecutive days 10, 11, 12. -/
def exConsDf : List Row := [⟨10, 1, 2⟩, ⟨11, 3, 4⟩, ⟨12, 5, 6⟩]

/-- A linearly rising dataset on days 0-3: every lag correlates
perfectly, so all stored coefficients tie at the maximum. -/
def exTieDf : List Row := [⟨0, 0, 0⟩, ⟨1, 1, 1⟩, ⟨2, 2, 2⟩, ⟨3, 3, 3⟩]

/-- A three-row linearly rising dataset. -/
def exLinDf : List Row := [⟨0, 0, 0⟩, ⟨1, 1, 1⟩, ⟨2, 2, 2⟩]

/-- A two-row dataset: every lag yields at most one paired observation,
so no lag has a defined correlation. -/
def exTinyDf : List Row := [⟨0, 5, 1⟩, ⟨1, 6, 2⟩]

/-- Observations on days 0 and 2 with nothing on day 1. -/
def exGapObs : List Obs := [⟨0, some 5⟩, ⟨2, some 7⟩]

/-- Observations where day 3 appears in the index only through a row
whose value failed coercion: the day contributes no observed value. -/
def exNanObs : List Obs := [⟨0, some 1⟩, ⟨3, none⟩]

/-- Observations for the mean-resampling witness: day 0 has values 2 and
4 plus an absent reading, day 2 has the value 9, day 1 has nothing. -/
def exMeanObs : List Obs := [⟨0, some 2⟩, ⟨0, none⟩, ⟨0, some 4⟩, ⟨2, some 9⟩]

/-- A one-day river series used by the join witness. -/
def exRioSeries : List (ℤ × ℚ) := [(5, 3)]

/-! Claim C4 — SUM resampling and empty days. -/

/-- Claim C4 counterexample: in `exGapObs`, calendar day 1 lies between
two observed days but has zero contributing observations, yet the
SUM-resampled output contains day 1 with value 0 — the day is not absent
as the claim states. -/
theorem C4_counterexample :
    dayVals exGapObs 1 = [] ∧ ((1 : ℤ), (0 : ℚ)) ∈ resampleSumD exGapObs := by
  decide

/-- Claim C4 (amended): the SUM-resampled output covers exactly the days
of the observation span, and a day of the span with zero contributing
observations is present with the value 0 (the sum of an empty day), not
absent. -/
theorem C4_sum_resample_span (obs : List Obs) (d : ℤ) :
    (resampleSumD obs).map Prod.fst = spanDays obs ∧
    (d ∈ spanDays obs → dayVals obs d = [] → (d, (0 : ℚ)) ∈ resampleSumD obs) := by
  constructor
  · rw [resampleSumD, List.map_map]
    exact (List.map_congr_left fun a _ => rfl).trans (List.map_id _)
  · intro hd hv
    have h := List.mem_map_of_mem (fun x => (x, (dayVals obs x).sum)) hd
    simp only [hv, List.sum_nil] at h
    exact h

/-- Witness for C4: day 3 of `exNanObs` has no observed value (its only
row failed coercion), yet it appears in the SUM output with value 0. -/
theorem C4_sum_resample_span_witness :
    ((3 : ℤ), (0 : ℚ)) ∈ resampleSumD exNanObs :=
  (C4_sum_resample_span exNanObs 3).2 (by decide) (by decide)

/-! Claim C5 — timestamp parse failures. -/

/-- Claim C5 counterexample: a column with one parseable and one
unparseable timestamp makes the whole parse fail, even though one row
(a nonzero count) parses successfully — the failing row is not dropped
and no error-free partial result is produced. -/
theorem C5_counterexample :
    to_datetime_strict [some 0, none] = Except.error () ∧
    [some (0 : ℤ), none].countP Option.isSome = 1 :=
  ⟨rfl, rfl⟩

/-- Claim C5 (amended): a timestamp field that fails to parse makes the
whole column conversion raise immediately, regardless of how many other
rows parse; the conversion succeeds exactly when every field parses. -/
theorem C5_strict_timestamp (ts : List (Option ℤ)) :
    ((∃ t ∈ ts, t = none) → to_datetime_strict ts = Except.error ()) ∧
    ((∀ t ∈ ts, t.isSome) → to_datetime_strict ts = Except.ok (ts.filterMap id)) := by
  constructor
  · rintro ⟨t, ht, rfl⟩
    have hall : ts.all Option.isSome = false := by
      rw [List.all_eq_false]
      exact ⟨none, ht, by simp⟩
    simp [to_datetime_strict, hall]
  · intro h
    have hall : ts.all Option.isSome = true := by
      rw [List.all_eq_true]
      intro x hx
      exact h x hx
    simp [to_datetime_strict, hall]

/-- Witness for C5: one bad timestamp makes the parse of a two-row
column raise; an all-good column parses in full. -/
theorem C5_strict_timestamp_witness :
    to_datetime_strict [some (3 : ℤ), none] = Except.error () ∧
    to_datetime_strict [some (1 : ℤ), some 2] = Except.ok [1, 2] := by
  constructor
  · exact (C5_strict_timestamp [some (3 : ℤ), none]).1 ⟨none, by decide, rfl⟩
  · have h := (C5_strict_timestamp [some (1 : ℤ), some 2]).2 (by decide)
    simpa using h

/-! Claim C6 — numeric coercion failures. -/

/-- Claim C6 counterexample: in the rainfall path of `process_data.py`
(line 94), text that fails numeric coercion is parsed to the number 0,
not to an absent value. -/
theorem C6_counterexample :
    to_numeric_coerce NumText.bad = none ∧ precipitacao_mm_pd NumText.bad = 0 := by
  constructor <;> rfl

/-- Claim C6 (amended): a value field that fails numeric coercion
becomes absent in both river-level parse paths, but the rainfall path of
`process_data.py` zero-fills the failure in the same expression, so that
path produces the number 0. -/
theorem C6_coercion_paths :
    nivel_m_1proc NumText.bad = none ∧ nivel_cm_pd NumText.bad = none ∧
    precipitacao_mm_pd NumText.bad = 0 ∧
    ∀ q, nivel_m_1proc (NumText.num q) = some q ∧
      precipitacao_mm_pd (NumText.num q) = q :=
  ⟨rfl, rfl, rfl, fun _ => ⟨rfl, rfl⟩⟩

/-! Claim C8 — MEAN resampling. -/

/-- Claim C8: a day appears in the daily river series exactly with the
arithmetic mean of its observed values — absent readings are excluded
from both the sum and the count — and a day with zero observed values
does not appear at all after the dropna. -/
theorem C8_mean_resample (obs : List Obs) (d : ℤ) (v : ℚ) :
    ((d, v) ∈ df_rio_diario obs →
      dayVals obs d ≠ [] ∧
      v = (dayVals obs d).sum / ((dayVals obs d).length : ℚ)) ∧
    (dayVals obs d = [] → (d, v) ∉ df_rio_diario obs) := by
  have main : (d, v) ∈ df_rio_diario obs →
      dayVals obs d ≠ [] ∧
      v = (dayVals obs d).sum / ((dayVals obs d).length : ℚ) := by
    intro h
    simp only [df_rio_diario, List.mem_filterMap] at h
    obtain ⟨p, hp, hmap⟩ := h
    simp only [resampleMeanD, List.mem_map] at hp
    obtain ⟨d', _, rfl⟩ := hp
    by_cases hv : dayVals obs d' = []
    · simp [hv] at hmap
    · rw [if_neg hv] at hmap
      simp only [Option.map_some', Option.some.injEq, Prod.mk.injEq] at hmap
      obtain ⟨rfl, rfl⟩ := hmap
      exact ⟨hv, rfl⟩
  exact ⟨main, fun hv hmem => (main hmem).1 hv⟩

/-- Witness for C8: day 0 of `exMeanObs` has observed values 2 and 4 and
one absent reading; its output value 3 is the mean over the two observed
values only.  Day 1 has no observation and is absent from the output. -/
theorem C8_mean_resample_witness :
    (dayVals exMeanObs 0 ≠ [] ∧
      (3 : ℚ) = (dayVals exMeanObs 0).sum / ((dayVals exMeanObs 0).length : ℚ)) ∧
    ((1 : ℤ), (9 : ℚ)) ∉ df_rio_diario exMeanObs :=
  ⟨(C8_mean_resample exMeanObs 0 3).1 (by
      have hs : spanDays exMeanObs = [0, 1, 2] := by decide
      have h0 : dayVals exMeanObs 0 = [2, 4] := by decide
      have h1 : dayVals exMeanObs 1 = [] := by decide
      have h2 : dayVals exMeanObs 2 = [9] := by decide
      have hd : df_rio_diario exMeanObs = [(0, 3), (2, 9)] := by
        norm_num [df_rio_diario, resampleMeanD, hs, h0, h1, h2, List.filterMap_cons,
          List.cons_ne_nil]
      rw [hd]
      exact List.mem_cons_self _ _),
   (C8_mean_resample exMeanObs 1 9).2 (by decide)⟩

/-! Claim C10 — totality of the consolidated dataset. -/

/-- Claim C10: every row of the final joined dataset has both fields
present; a date of the river series with no rainfall entry receives
precipitation 0 through the merge-time fill and survives the dropna. -/
theorem C10_join_totality (rio clima : List (ℤ × ℚ)) :
    (∀ r ∈ df_final rio clima, r.nivel.isSome ∧ r.precip.isSome) ∧
    (∀ d n, (d, n) ∈ rio → lookupDay clima d = none →
      (⟨d, some n, some 0⟩ : JRow) ∈ df_final rio clima) := by
  constructor
  · intro r hr
    simp only [df_final, dropnaRows, List.mem_filter, Bool.and_eq_true] at hr
    exact hr.2
  · intro d n hdn hl
    simp only [df_final, dropnaRows, fillnaPrecip, joinRio, List.mem_filter,
      List.map_map, List.mem_map]
    constructor
    · refine ⟨(d, n), hdn, ?_⟩
      simp [Function.comp, hl]
    · simp

/-- Witness for C10: date 5 is in the river series and not in the (empty)
rainfall series, and comes out of the join with precipitation 0. -/
theorem C10_join_totality_witness :
    (⟨5, some 3, some 0⟩ : JRow) ∈ df_final exRioSeries [] :=
  (C10_join_totality exRioSeries []).2 5 3 (by decide) (by decide)

/-! Machinery for the lag-search claims. -/

theorem stepMax_cases (b q : ℕ × ℚ) : stepMax b q = b ∨ stepMax b q = q := by
  unfold stepMax
  by_cases h : b.2 < q.2
  · rw [if_pos h]; exact Or.inr rfl
  · rw [if_neg h]; exact Or.inl rfl

theorem stepMax_le_left (b q : ℕ × ℚ) : b.2 ≤ (stepMax b q).2 := by
  unfold stepMax
  by_cases h : b.2 < q.2
  · rw [if_pos h]; exact le_of_lt h
  · rw [if_neg h]

theorem stepMax_le_right (b q : ℕ × ℚ) : q.2 ≤ (stepMax b q).2 := by
  unfold stepMax
  by_cases h : b.2 < q.2
  · rw [if_pos h]
  · rw [if_neg h]; exact le_of_not_lt h

/-- The Python fold keeping the running maximum returns an element of
the list (or the seed) whose value dominates the seed and every element. -/
theorem foldl_stepMax_spec (ps : List (ℕ × ℚ)) (p : ℕ × ℚ) :
    (ps.foldl stepMax p = p ∨ ps.foldl stepMax p ∈ ps) ∧
    p.2 ≤ (ps.foldl stepMax p).2 ∧ ∀ q ∈ ps, q.2 ≤ (ps.foldl stepMax p).2 := by
  induction ps generalizing p with
  | nil => exact ⟨Or.inl rfl, le_rfl, by simp⟩
  | cons q0 ps ih =>
    obtain ⟨hmem, hle, hall⟩ := ih (stepMax p q0)
    rw [List.foldl_cons]
    refine ⟨?_, le_trans (stepMax_le_left p q0) hle, ?_⟩
    · rcases hmem with h | h
      · rcases stepMax_cases p q0 with hc | hc
        · exact Or.inl (h.trans hc)
        · exact Or.inr (by rw [h, hc]; exact List.mem_cons_self _ _)
      · exact Or.inr (List.mem_cons_of_mem _ h)
    · intro q hq
      rcases List.mem_cons.mp hq with rfl | hq'
      · exact le_trans (stepMax_le_right p q) hle
      · exact hall q hq'

/-- Because Python's `max` only replaces the running best on a strictly
greater value, on a list with strictly increasing keys it returns the
element with the smallest key among those attaining the maximum value. -/
theorem foldl_stepMax_first (ps : List (ℕ × ℚ)) (p : ℕ × ℚ)
    (hp : (p :: ps).Pairwise fun a b => a.1 < b.1) :
    ∀ q ∈ p :: ps, q.2 = (ps.foldl stepMax p).2 → (ps.foldl stepMax p).1 ≤ q.1 := by
  induction ps generalizing p with
  | nil =>
    intro q hq _
    rcases List.mem_singleton.mp hq with rfl
    exact le_rfl
  | cons q0 ps ih =>
    rw [List.foldl_cons]
    intro q hq hq2
    have hpair : (stepMax p q0 :: ps).Pairwise fun a b => a.1 < b.1 := by
      rcases stepMax_cases p q0 with hc | hc <;> rw [hc]
      · obtain ⟨hpall, hrest⟩ := List.pairwise_cons.mp hp
        obtain ⟨-, hps⟩ := List.pairwise_cons.mp hrest
        exact List.pairwise_cons.mpr
          ⟨fun b hb => hpall b (List.mem_cons_of_mem _ hb), hps⟩
      · exact (List.pairwise_cons.mp hp).2
    have hspec := foldl_stepMax_spec ps (stepMax p q0)
    rcases List.mem_cons.mp hq with rfl | hq'
    · by_cases hcmp : q.2 < q0.2
      · exfalso
        have hlt : q.2 < (ps.foldl stepMax (stepMax q q0)).2 :=
          lt_of_lt_of_le hcmp (le_trans (stepMax_le_right q q0) hspec.2.1)
        exact lt_irrefl _ (hq2 ▸ hlt)
      · have hstep : stepMax q q0 = q := by unfold stepMax; rw [if_neg hcmp]
        exact ih (stepMax q q0) hpair q
          (by rw [hstep]; exact List.mem_cons_self _ _) hq2
    rcases List.mem_cons.mp hq' with rfl | hq''
    · by_cases hcmp : p.2 < q.2
      · have hstep : stepMax p q = q := by unfold stepMax; rw [if_pos hcmp]
        exact ih (stepMax p q) hpair q
          (by rw [hstep]; exact List.mem_cons_self _ _) hq2
      · have hq0p : q.2 ≤ p.2 := le_of_not_lt hcmp
        have hresp : (ps.foldl stepMax (stepMax p q)).2 ≤ p.2 := hq2 ▸ hq0p
        have hpe : p.2 = (ps.foldl stepMax (stepMax p q)).2 :=
          le_antisymm (le_trans (stepMax_le_left p q) hspec.2.1) hresp
        have hstep : stepMax p q = p := by unfold stepMax; rw [if_neg hcmp]
        have hres := ih (stepMax p q) hpair p
          (by rw [hstep]; exact List.mem_cons_self _ _) hpe
        have hlt : p.1 < q.1 := (List.pairwise_cons.mp hp).1 q (List.mem_cons_self _ _)
        exact le_of_lt (lt_of_le_of_lt hres hlt)
    · exact ih (stepMax p q0) hpair q (List.mem_cons_of_mem _ hq'') hq2

/-- The keys of the lag dictionary are strictly increasing: the loop
inserts lags in the order `1, ..., max_lag`. -/
theorem correlacoes_keys_sorted (df : List Row) (maxLag : ℕ) :
    (correlacoes df maxLag).Pairwise fun a b => a.1 < b.1 := by
  refine (List.pairwise_lt_range maxLag).filterMap _ ?_
  intro a a' hlt b hb b' hb'
  rw [Option.mem_def, Option.map_eq_some'] at hb hb'
  obtain ⟨c, -, rfl⟩ := hb
  obtain ⟨c', -, rfl⟩ := hb'
  simpa using hlt

/-! Concrete evaluations of the analyzer, shared by the witnesses. -/

theorem corrPairs_exTieDf_one : corrPairs exTieDf 1 = [(1, 0), (2, 1), (3, 2)] := by
  norm_num [corrPairs, exTieDf, chuvaAcumulada, precipWindow, List.range_succ,
    List.filterMap_cons]

theorem corrPairs_exTieDf_two : corrPairs exTieDf 2 = [(2, 1), (3, 3)] := by
  norm_num [corrPairs, exTieDf, chuvaAcumulada, precipWindow, List.range_succ,
    List.filterMap_cons]

theorem correlacoes_exTieDf_eq : correlacoes exTieDf 2 = [(1, 1), (2, 1)] := by
  have hp1 : pearsonSq [((1 : ℚ), (0 : ℚ)), (2, 1), (3, 2)] = some 1 := by
    norm_num [pearsonSq, dotCentered, listMean, abs_of_nonneg]
  have hp2 : pearsonSq [((2 : ℚ), (1 : ℚ)), (3, 3)] = some 1 := by
    norm_num [pearsonSq, dotCentered, listMean, abs_of_nonneg]
  norm_num [correlacoes, List.range_succ, List.filterMap_cons,
    corrPairs_exTieDf_one, corrPairs_exTieDf_two, hp1, hp2]

theorem calcular_exTieDf_eq :
    calcular_correlacao_com_lag exTieDf 2 = (some 1, some 1, some [(1, 1), (2, 1)]) := by
  rw [calcular_correlacao_com_lag, correlacoes_exTieDf_eq]
  norm_num [pyMax, stepMax]

theorem correlacoes_exLinDf_eq : correlacoes exLinDf 1 = [(1, 1)] := by
  have hcp : corrPairs exLinDf 1 = [(1, 0), (2, 1)] := by
    norm_num [corrPairs, exLinDf, chuvaAcumulada, precipWindow, List.range_succ,
      List.filterMap_cons]
  have hp : pearsonSq [((1 : ℚ), (0 : ℚ)), (2, 1)] = some 1 := by
    norm_num [pearsonSq, dotCentered, listMean, abs_of_nonneg]
  norm_num [correlacoes, List.range_succ, List.filterMap_cons, hcp, hp]

/-! Claim C9 — lag bounds of the result mapping. -/

/-- Claim C9: the result mapping of the analyzer has no entry whose lag
is below 1 or above `max_lag`. -/
theorem C9_lag_bounds (df : List Row) (maxLag : ℕ) (bl : Option ℕ) (bc : Option ℚ)
    (m : List (ℕ × ℚ)) (lag : ℕ) (c : ℚ)
    (hres : calcular_correlacao_com_lag df maxLag = (bl, bc, some m))
    (hmem : (lag, c) ∈ m) : 1 ≤ lag ∧ lag ≤ maxLag := by
  have hm : m = correlacoes df maxLag := by
    unfold calcular_correlacao_com_lag at hres
    rcases h : pyMax (correlacoes df maxLag) with - | b
    · rw [h] at hres
      simp at hres
    · rw [h] at hres
      simp only [Prod.mk.injEq, Option.some.injEq] at hres
      exact hres.2.2.symm
  subst hm
  simp only [correlacoes, List.mem_filterMap, List.mem_range] at hmem
  obtain ⟨j, hj, hfj⟩ := hmem
  rw [Option.map_eq_some'] at hfj
  obtain ⟨c', -, heq⟩ := hfj
  simp only [Prod.mk.injEq] at heq
  omega

/-- Witness for C9: the entry of lag 2 in the result for `exTieDf` with
`max_lag = 2` satisfies the bounds. -/
theorem C9_lag_bounds_witness : 1 ≤ 2 ∧ 2 ≤ 2 :=
  C9_lag_bounds exTieDf 2 (some 1) (some 1) [(1, 1), (2, 1)] 2 1
    calcular_exTieDf_eq (by decide)

/-! Claim C3 — only defined coefficients, explicit no-result. -/

/-- Claim C3: every entry of the dictionary carries the defined
correlation of its lag (a lag with an undefined coefficient is never
inserted), and when no lag in range has a defined coefficient the
analyzer returns the explicit no-result triple. -/
theorem C3_undefined_excluded (df : List Row) (maxLag : ℕ) :
    (∀ lag c, (lag, c) ∈ correlacoes df maxLag →
      pearsonSq (corrPairs df lag) = some c) ∧
    ((∀ lag, 1 ≤ lag → lag ≤ maxLag → pearsonSq (corrPairs df lag) = none) →
      calcular_correlacao_com_lag df maxLag = (none, none, none)) := by
  constructor
  · intro lag c hmem
    simp only [correlacoes, List.mem_filterMap, List.mem_range] at hmem
    obtain ⟨j, hj, hfj⟩ := hmem
    rw [Option.map_eq_some'] at hfj
    obtain ⟨c', hc', heq⟩ := hfj
    simp only [Prod.mk.injEq] at heq
    rw [← heq.1, ← heq.2]
    exact hc'
  · intro h
    have hnil : correlacoes df maxLag = [] := by
      rw [correlacoes, List.filterMap_eq_nil_iff]
      intro j hj
      rw [h (j + 1) (by omega) (by simpa using List.mem_range.mp hj)]
      rfl
    rw [calcular_correlacao_com_lag, hnil]
    rfl

/-- Witness for C3: the lag-1 entry of `exLinDf` carries its defined
coefficient, and the two-row dataset `exTinyDf`, where no lag has a
defined coefficient, produces the no-result triple. -/
theorem C3_undefined_excluded_witness :
    pearsonSq (corrPairs exLinDf 1) = some 1 ∧
    calcular_correlacao_com_lag exTinyDf 2 = (none, none, none) := by
  constructor
  · refine (C3_undefined_excluded exLinDf 1).1 1 1 ?_
    rw [correlacoes_exLinDf_eq]
    exact List.mem_cons_self _ _
  · refine (C3_undefined_excluded exTinyDf 2).2 ?_
    intro lag h1 h2
    interval_cases lag
    · have hcp : corrPairs exTinyDf 1 = [(6, 1)] := by
        norm_num [corrPairs, exTinyDf, chuvaAcumulada, precipWindow, List.range_succ,
          List.filterMap_cons]
      rw [hcp]
      norm_num [pearsonSq, dotCentered, listMean]
    · have hcp : corrPairs exTinyDf 2 = [] := by
        norm_num [corrPairs, exTinyDf, chuvaAcumulada, precipWindow, List.range_succ,
          List.filterMap_cons]
      rw [hcp]
      norm_num [pearsonSq, dotCentered, listMean]

/-! Claim C2 — best lag is the maximum, ties to the smallest lag. -/

/-- Claim C2: when the analyzer returns a best lag, its coefficient is
stored in the mapping, dominates every stored coefficient, and among the
lags attaining the maximum the returned one is the smallest. -/
theorem C2_best_lag (df : List Row) (maxLag bl : ℕ) (bc : ℚ) (m : List (ℕ × ℚ))
    (hres : calcular_correlacao_com_lag df maxLag = (some bl, some bc, some m)) :
    (bl, bc) ∈ m ∧ (∀ p ∈ m, p.2 ≤ bc) ∧ ∀ p ∈ m, p.2 = bc → bl ≤ p.1 := by
  unfold calcular_correlacao_com_lag at hres
  rcases hcs : correlacoes df maxLag with - | ⟨p, ps⟩
  · rw [hcs] at hres
    simp [pyMax] at hres
  · rw [hcs] at hres
    simp only [pyMax, Prod.mk.injEq, Option.some.injEq] at hres
    obtain ⟨h1, h2, h3⟩ := hres
    subst h3
    have hspec := foldl_stepMax_spec ps p
    have hsorted := correlacoes_keys_sorted df maxLag
    rw [hcs] at hsorted
    have hfirst := foldl_stepMax_first ps p hsorted
    refine ⟨?_, ?_, ?_⟩
    · have hmem : ps.foldl stepMax p ∈ p :: ps := by
        rcases hspec.1 with h | h
        · rw [h]; exact List.mem_cons_self _ _
        · exact List.mem_cons_of_mem _ h
      have hpair : (bl, bc) = ps.foldl stepMax p := by
        rw [← h1, ← h2]
      rw [hpair]
      exact hmem
    · intro q hq
      rw [← h2]
      rcases List.mem_cons.mp hq with rfl | hq'
      · exact hspec.2.1
      · exact hspec.2.2 q hq'
    · intro q hq hqe
      rw [← h1]
      exact hfirst q hq (by rw [hqe, ← h2])

/-- Witness for C2: on `exTieDf` both lags 1 and 2 have coefficient 1;
the analyzer reports lag 1 — the smallest of the tied maximisers — with
the maximal coefficient. -/
theorem C2_best_lag_witness :
    ((1 : ℕ), (1 : ℚ)) ∈ [((1 : ℕ), (1 : ℚ)), (2, 1)] ∧
    (∀ p ∈ [((1 : ℕ), (1 : ℚ)), (2, 1)], p.2 ≤ 1) ∧
    ∀ p ∈ [((1 : ℕ), (1 : ℚ)), (2, 1)], p.2 = 1 → 1 ≤ p.1 :=
  C2_best_lag exTieDf 2 1 1 [(1, 1), (2, 1)] calcular_exTieDf_eq

/-! Machinery for claim C1: positions versus calendar days. -/

/-- In a consecutive-date dataset, the date at index `i` is the head's
date plus `i`. -/
theorem consec_get_date (rest : List Row) (r : Row)
    (hc : ConsecutiveDates (r :: rest)) (i : ℕ) (h : i < (r :: rest).length) :
    ((r :: rest).get ⟨i, h⟩).date = r.date + (i : ℤ) := by
  induction rest generalizing r i with
  | nil =>
    match i, h with
    | 0, _ => simp
  | cons s rest ih =>
    match i, h with
    | 0, _ => simp
    | i' + 1, h =>
      have hcs := List.chain'_cons.mp hc
      have hrec := ih s hcs.2 i' (by simpa using Nat.lt_of_succ_lt_succ h)
      calc ((r :: s :: rest).get ⟨i' + 1, h⟩).date
          = ((s :: rest).get ⟨i', Nat.lt_of_succ_lt_succ h⟩).date := rfl
        _ = s.date + (i' : ℤ) := hrec
        _ = r.date + ((i' + 1 : ℕ) : ℤ) := by rw [hcs.1]; push_cast; ring

/-- In a consecutive-date dataset, every later row has a strictly larger
date than the head. -/
theorem consec_head_lt (rest : List Row) (r : Row)
    (hc : ConsecutiveDates (r :: rest)) : ∀ s ∈ rest, r.date < s.date := by
  induction rest generalizing r with
  | nil => simp
  | cons s0 rest ih =>
    intro s hs
    have hcs := List.chain'_cons.mp hc
    rcases List.mem_cons.mp hs with rfl | hs'
    · rw [hcs.1]; omega
    · have h0 := ih s0 hcs.2 s hs'
      rw [hcs.1] at h0
      omega

/-- An empty calendar interval contributes no precipitation. -/
theorem sumPrecipInRange_of_lt (df : List Row) (a b : ℤ) (h : b < a) :
    sumPrecipInRange df a b = 0 := by
  unfold sumPrecipInRange
  have hnil : df.filter (fun r => decide (a ≤ r.date) && decide (r.date ≤ b)) = [] := by
    rw [List.filter_eq_nil_iff]
    intro r _
    simp only [Bool.and_eq_true, decide_eq_true_eq, not_and]
    intro h1
    omega
  rw [hnil]
  rfl

/-- Replacing the lower bound of the date interval by an equivalent one
does not change the selected rows. -/
theorem sumPrecipInRange_congr_left (df : List Row) (a a' b : ℤ)
    (h : ∀ s ∈ df, a ≤ s.date ↔ a' ≤ s.date) :
    sumPrecipInRange df a b = sumPrecipInRange df a' b := by
  unfold sumPrecipInRange
  have hfe : df.filter (fun s => decide (a ≤ s.date) && decide (s.date ≤ b)) =
      df.filter (fun s => decide (a' ≤ s.date) && decide (s.date ≤ b)) := by
    apply List.filter_congr
    intro s hs
    rw [decide_eq_decide.mpr (h s hs)]
  rw [hfe]

/-- On a consecutive-date dataset, the positional window of the `lag`
rows before index `i` sums exactly the precipitation of the `lag`
calendar days strictly preceding the date at index `i`. -/
theorem precipWindow_eq_calendar (df : List Row) (hc : ConsecutiveDates df) (k i : ℕ)
    (hki : k ≤ i) (hi : i < df.length) :
    precipWindow df k i =
      sumPrecipInRange df ((df.get ⟨i, hi⟩).date - (k : ℤ))
        ((df.get ⟨i, hi⟩).date - 1) := by
  induction df generalizing k i with
  | nil => exact absurd hi (by simp)
  | cons r rest ih =>
    match k, hki with
    | 0, _ =>
      have hz : precipWindow (r :: rest) 0 i = 0 := by
        simp [precipWindow]
      rw [hz, Nat.cast_zero, sub_zero,
        sumPrecipInRange_of_lt (r :: rest) _ _ (by omega)]
    | k' + 1, hki =>
      match i, hki with
      | i' + 1, hki =>
        have hcs : ConsecutiveDates rest := hc.tail
        have hi' : i' < rest.length := Nat.lt_of_succ_lt_succ hi
        have hdate : ((r :: rest).get ⟨i' + 1, hi⟩).date = r.date + ((i' + 1 : ℕ) : ℤ) :=
          consec_get_date rest r hc (i' + 1) hi
        have hgtail : ((r :: rest).get ⟨i' + 1, hi⟩) = rest.get ⟨i', hi'⟩ := rfl
        by_cases hk : k' + 1 ≤ i'
        · -- the window lies entirely in the tail
          have hw : precipWindow (r :: rest) (k' + 1) (i' + 1) =
              precipWindow rest (k' + 1) i' := by
            unfold precipWindow
            rw [List.map_cons, show i' + 1 - (k' + 1) = (i' - (k' + 1)) + 1 by omega,
              List.drop_succ_cons]
          have hdr : ((rest.get ⟨i', hi'⟩).date) = r.date + ((i' + 1 : ℕ) : ℤ) := by
            rw [← hgtail, hdate]
          have hrskip : sumPrecipInRange (r :: rest)
              (((r :: rest).get ⟨i' + 1, hi⟩).date - ((k' + 1 : ℕ) : ℤ))
              (((r :: rest).get ⟨i' + 1, hi⟩).date - 1) =
              sumPrecipInRange rest
              (((r :: rest).get ⟨i' + 1, hi⟩).date - ((k' + 1 : ℕ) : ℤ))
              (((r :: rest).get ⟨i' + 1, hi⟩).date - 1) := by
            unfold sumPrecipInRange
            rw [List.filter_cons, if_neg]
            simp only [Bool.and_eq_true, decide_eq_true_eq, not_and]
            intro h1
            rw [hdate] at h1
            exfalso
            omega
          rw [hw, hrskip, hgtail, ih hcs (k' + 1) i' hk hi']
        · -- the window starts exactly at the head row
          have hk' : k' = i' := by omega
          subst hk'
          have hw : precipWindow (r :: rest) (k' + 1) (k' + 1) =
              r.precip + precipWindow rest k' k' := by
            unfold precipWindow
            rw [List.map_cons, Nat.sub_self, List.drop_zero, List.take_succ_cons,
              List.sum_cons, Nat.sub_self, List.drop_zero]
          have hdr : ((rest.get ⟨k', hi'⟩).date) = r.date + ((k' + 1 : ℕ) : ℤ) := by
            rw [← hgtail, hdate]
          have hhead : sumPrecipInRange (r :: rest)
              (((r :: rest).get ⟨k' + 1, hi⟩).date - ((k' + 1 : ℕ) : ℤ))
              (((r :: rest).get ⟨k' + 1, hi⟩).date - 1) =
              r.precip + sumPrecipInRange rest
              (((r :: rest).get ⟨k' + 1, hi⟩).date - ((k' + 1 : ℕ) : ℤ))
              (((r :: rest).get ⟨k' + 1, hi⟩).date - 1) := by
            unfold sumPrecipInRange
            rw [List.filter_cons, if_pos]
            · rw [List.map_cons, List.sum_cons]
            · simp only [Bool.and_eq_true, decide_eq_true_eq]
              rw [hdate]
              constructor <;> [omega; omega]
          have hshift : sumPrecipInRange rest
              (((r :: rest).get ⟨k' + 1, hi⟩).date - ((k' + 1 : ℕ) : ℤ))
              (((r :: rest).get ⟨k' + 1, hi⟩).date - 1) =
              sumPrecipInRange rest
              (((rest.get ⟨k', hi'⟩).date) - (k' : ℤ))
              (((rest.get ⟨k', hi'⟩).date) - 1) := by
            rw [hgtail]
            apply sumPrecipInRange_congr_left
            intro s hs
            have hlt := consec_head_lt rest r hc s hs
            rw [hdr]
            omega
          rw [hw, hhead, hshift, ih hcs k' k' le_rfl hi']

/-! Claim C1 — what the accumulated-driver value actually sums. -/

/-- Claim C1 counterexample: `exGapDf` is an aligned dataset whose rows
are days 0 and 2 (day 1 was dropped by the join for lack of a river
measurement).  For lag 1, the analyzer correlates the response at date 2
against 5 — the precipitation of the preceding row, day 0 — whereas the
sum of the driver over the 1 day strictly preceding date 2 (the interval
from 2-1 to 2-1, i.e. day 1) is 0. -/
theorem C1_counterexample :
    (chuvaAcumulada exGapDf 1)[1]? = some (some 5) ∧
    (exGapDf.get ⟨1, by decide⟩).date = 2 ∧
    sumPrecipInRange exGapDf (2 - 1) (2 - 1) = 0 ∧ (5 : ℚ) ≠ 0 := by
  refine ⟨?_, by decide, ?_, by norm_num⟩
  · have hacc : chuvaAcumulada exGapDf 1 = [none, some 5] := by
      norm_num [chuvaAcumulada, exGapDf, precipWindow, List.range_succ]
    rw [hacc]
    rfl
  · norm_num [sumPrecipInRange, exGapDf, List.filter_cons]

/-- Claim C1 (amended): the analyzer's accumulated value at row `i` for
lag `k` sums the `k` rows strictly preceding row `i`; when the dataset's
dates are consecutive calendar days this equals the sum of the driver
over the `k` days strictly preceding the row's date, current day
excluded. -/
theorem C1_accumulated_window (df : List Row) (maxLag k i : ℕ)
    (hc : ConsecutiveDates df) (hk : 1 ≤ k) (hkmax : k ≤ maxLag)
    (hki : k ≤ i) (hi : i < df.length) :
    (chuvaAcumulada df k)[i]? =
      some (some (sumPrecipInRange df ((df.get ⟨i, hi⟩).date - (k : ℤ))
        ((df.get ⟨i, hi⟩).date - 1))) := by
  have hbase : (chuvaAcumulada df k)[i]? =
      some (if k ≤ i then some (precipWindow df k i) else none) := by
    simp [chuvaAcumulada, List.getElem?_map, List.getElem?_range, hi]
  rw [hbase, if_pos hki, precipWindow_eq_calendar df hc k i hki hi]

/-- Witness for C1: on the consecutive dataset `exConsDf` (days 10-12),
the lag-1 accumulated value at the row of date 12 is 4, the
precipitation of day 11 — exactly the sum over the interval from 11
to 11. -/
theorem C1_accumulated_window_witness :
    (chuvaAcumulada exConsDf 1)[2]? = some (some 4) ∧
    sumPrecipInRange exConsDf 11 11 = 4 := by
  have hcons : ConsecutiveDates exConsDf := by
    show List.Chain' (fun a b => b.date = a.date + 1) exConsDf
    norm_num [exConsDf, List.chain'_cons]
  have hsum : sumPrecipInRange exConsDf 11 11 = 4 := by
    norm_num [sumPrecipInRange, exConsDf, List.filter_cons]
  have h := C1_accumulated_window exConsDf 1 1 2 hcons le_rfl le_rfl (by omega) (by decide)
  refine ⟨?_, hsum⟩
  calc (chuvaAcumulada exConsDf 1)[2]?
      = some (some (sumPrecipInRange exConsDf 11 11)) := h
    _ = some (some 4) := by rw [hsum]

/-! Claim C7 — the fixed merge scenario. -/

/-- The join stage in closed form: one output row per river date, level
kept, precipitation looked up in the climate series with absent entries
zero-filled; the final dropna never removes a row because the left join
always carries a level and the fill always supplies a precipitation. -/
theorem df_final_eq (rio clima : List (ℤ × ℚ)) :
    df_final rio clima =
      rio.map fun p => ⟨p.1, some p.2, some ((lookupDay clima p.1).getD 0)⟩ := by
  induction rio with
  | nil => rfl
  | cons p ps ih =>
    simp only [df_final, dropnaRows, fillnaPrecip, joinRio, List.map_cons,
      List.filter_cons, Option.isSome_some, Bool.and_self, if_true] at ih ⊢
    rw [ih]

theorem seriesOn_succ (a : ℤ) (n : ℕ) (f : ℤ → ℚ) :
    seriesOn a (n + 1) f = (a, f a) :: seriesOn (a + 1) n f := by
  unfold seriesOn
  rw [List.range_succ_eq_map, List.map_cons, List.map_map]
  congr 1
  · norm_num
  · apply List.map_congr_left
    intro j _
    have hcast : a + ((j : ℤ) + 1) = a + 1 + (j : ℤ) := by ring
    simp [Function.comp, hcast]

theorem lookupDay_seriesOn (n : ℕ) : ∀ (a : ℤ) (f : ℤ → ℚ) (d : ℤ),
    lookupDay (seriesOn a n f) d =
      if a ≤ d ∧ d < a + (n : ℤ) then some (f d) else none := by
  induction n with
  | zero =>
    intro a f d
    rw [if_neg (by omega)]
    rfl
  | succ n ih =>
    intro a f d
    rw [seriesOn_succ]
    by_cases hd : a = d
    · subst hd
      rw [if_pos (by omega)]
      unfold lookupDay
      rw [List.find?_cons_of_pos _ (by simp)]
      rfl
    · have htail : lookupDay ((a, f a) :: seriesOn (a + 1) n f) d =
          lookupDay (seriesOn (a + 1) n f) d := by
        unfold lookupDay
        rw [List.find?_cons_of_neg _ (by simpa using hd)]
      rw [htail, ih (a + 1) f d]
      by_cases h1 : a + 1 ≤ d ∧ d < a + 1 + (n : ℤ)
      · rw [if_pos h1, if_pos (by push_cast; omega)]
      · rw [if_neg h1, if_neg (by push_cast at h1 ⊢; omega)]

/-- Claim C7: merging a level series covering days 50-100 with a
rainfall series covering days 1-100, rainfall zero-filled and level
rows dropped when absent, yields exactly the rows of days 50-100, each
with its level and its rainfall, and nothing for days 1-49. -/
theorem C7_merge_scenario (f g : ℤ → ℚ) :
    df_final (seriesOn 50 51 f) (seriesOn 1 100 g) =
      (List.range 51).map (fun (j : ℕ) =>
        (⟨50 + (j : ℤ), some (f (50 + (j : ℤ))), some (g (50 + (j : ℤ)))⟩ : JRow)) ∧
    ∀ r ∈ df_final (seriesOn 50 51 f) (seriesOn 1 100 g),
      (50 : ℤ) ≤ r.date ∧ r.date ≤ 100 := by
  have hmain : df_final (seriesOn 50 51 f) (seriesOn 1 100 g) =
      (List.range 51).map (fun (j : ℕ) =>
        (⟨50 + (j : ℤ), some (f (50 + (j : ℤ))), some (g (50 + (j : ℤ)))⟩ : JRow)) := by
    rw [df_final_eq]
    rw [show seriesOn 50 51 f = (List.range 51).map
        (fun (j : ℕ) => ((50 : ℤ) + (j : ℤ), f (50 + (j : ℤ)))) from rfl]
    rw [List.map_map]
    apply List.map_congr_left
    intro j hj
    have hj51 : j < 51 := List.mem_range.mp hj
    have hlook : lookupDay (seriesOn 1 100 g) (50 + (j : ℤ)) =
        some (g (50 + (j : ℤ))) := by
      rw [lookupDay_seriesOn]
      rw [if_pos (by push_cast; omega)]
    simp [Function.comp, hlook]
  refine ⟨hmain, ?_⟩
  intro r hr
  rw [hmain] at hr
  obtain ⟨j, hj, rfl⟩ := List.mem_map.mp hr
  have hj51 := List.mem_range.mp hj
  refine ⟨?_, ?_⟩ <;> (dsimp only; omega)
